import Mathlib

/-!
Shallow embedding of the CHIP-8 emulator (src/chip8.rs, src/interface.rs).

Machine integers are modelled as `Nat` with an explicit `% 2^w` exactly where
the Rust code wraps (u8 `wrapping_add`, u8 `<<`, u16 `+` in release builds).
Rust operations that can panic (array indexing out of bounds, `sp -= 1`
underflow followed by an out-of-bounds stack index) are modelled as
`Option`-returning functions where `none` is the panic.
-/

namespace Chip8Spec

/-- State of `Interface` (interface.rs): the 64x32 screen of u32 pixels, the
16-key keypad, and the beep flag.  The window and the audio stream are
external devices with no state relevant to the core. -/
structure Interface where
  screen : Fin 2048 → Nat
  keypad : Fin 16 → Bool
  is_beeping : Bool

/-- Models `Interface::new`: screen all 0 (pixels off), keypad all unpressed,
not beeping. -/
def Interface.new : Interface :=
  { screen := fun _ => 0
    keypad := fun _ => false
    is_beeping := false }

/-- Models `Interface::set_beep`: the state effect is recording the flag
(the sound playback is an external side effect). -/
def Interface.set_beep (intf : Interface) (should_beep : Bool) : Interface :=
  { intf with is_beeping := should_beep }

/-- The machine state of `Chip8` (chip8.rs). -/
structure Chip8 where
  memory : Fin 4096 → Nat
  v : Fin 16 → Nat
  i : Nat
  pc : Nat
  stack : Fin 16 → Nat
  sp : Nat
  delay_timer : Nat
  sound_timer : Nat
  interface : Interface

/-- The FONTSET constant of chip8.rs: 16 glyphs of 5 bytes each. -/
def FONTSET : List Nat :=
  [0xF0, 0x90, 0x90, 0x90, 0xF0,
   0x20, 0x60, 0x20, 0x20, 0x70,
   0xF0, 0x10, 0xF0, 0x80, 0xF0,
   0xF0, 0x10, 0xF0, 0x10, 0xF0,
   0x90, 0x90, 0xF0, 0x10, 0x10,
   0xF0, 0x80, 0xF0, 0x10, 0xF0,
   0xF0, 0x80, 0xF0, 0x90, 0xF0,
   0xF0, 0x10, 0x20, 0x40, 0x40,
   0xF0, 0x90, 0xF0, 0x90, 0xF0,
   0xF0, 0x90, 0xF0, 0x10, 0xF0,
   0xF0, 0x90, 0xF0, 0x90, 0x90,
   0xE0, 0x90, 0xE0, 0x90, 0xE0,
   0xF0, 0x80, 0x80, 0x80, 0xF0,
   0xE0, 0x90, 0x90, 0x90, 0xE0,
   0xF0, 0x80, 0xF0, 0x80, 0xF0,
   0xF0, 0x80, 0xF0, 0x80, 0x80]

/-- Models `Chip8::new`: zeroed state, `pc = 0x200`, fontset copied into
memory cells 0..80. -/
def Chip8.new (interface : Interface) : Chip8 :=
  { memory := fun a => if a.val < 80 then FONTSET.getD a.val 0 else 0
    v := fun _ => 0
    i := 0
    pc := 0x200
    stack := fun _ => 0
    sp := 0
    delay_timer := 0
    sound_timer := 0
    interface := interface }

/-- A read `self.memory[addr]`: Rust indexing panics (`none`) when the address
is not below 4096. -/
def readMem (s : Chip8) (addr : Nat) : Option Nat :=
  if h : addr < 4096 then some (s.memory ⟨addr, h⟩) else none

/-- A write `self.memory[addr] = val`, panicking (`none`) when out of bounds. -/
def writeMem (s : Chip8) (addr val : Nat) : Option Chip8 :=
  if h : addr < 4096 then
    some { s with memory := Function.update s.memory ⟨addr, h⟩ val }
  else none

/-- Total memory lookup used only in theorem statements (never by the
embedded code): out-of-range reads as 0. -/
def memGet (mem : Fin 4096 → Nat) (a : Nat) : Nat :=
  if h : a < 4096 then mem ⟨a, h⟩ else 0

/-- Models the `Ok(contents)` branch of `Chip8::load_program`: the bytes are
copied into memory starting at 0x200.  The slice
`self.memory[start..(start + contents.len())]` panics (`none`) when
`0x200 + contents.len()` exceeds 4096.  (The file reading itself is external
I/O; its `Err` branch leaves the state untouched.) -/
def Chip8.load_program (s : Chip8) (contents : List Nat) : Option Chip8 :=
  if 0x200 + contents.length ≤ 4096 then
    some { s with memory := fun a =>
      if h : 0x200 ≤ a.val ∧ a.val < 0x200 + contents.length then
        contents.get ⟨a.val - 0x200, by omega⟩
      else s.memory a }
  else none

/-- Models `Chip8::cls`: `self.interface.screen.fill(0)`. -/
def Chip8.cls (s : Chip8) : Chip8 :=
  { s with interface := { s.interface with screen := fun _ => 0 } }

/-- Models `Chip8::ret`: `sp -= 1; pc = stack[sp]`.  When `sp = 0` the
decrement underflows: panic in debug builds, and in release builds it wraps
to 255 so that `stack[255]` is out of bounds — a panic either way (`none`). -/
def Chip8.ret (s : Chip8) : Option Chip8 :=
  if s.sp = 0 then none
  else if h : s.sp - 1 < 16 then
    some { s with sp := s.sp - 1, pc := s.stack ⟨s.sp - 1, h⟩ }
  else none

/-- Models `Chip8::jp`: `pc = opcode & 0x0FFF`. -/
def Chip8.jp (s : Chip8) (opcode : Nat) : Chip8 :=
  { s with pc := opcode &&& 0x0FFF }

/-- Models `Chip8::call`: `stack[sp] = pc; sp += 1; pc = nnn`.  The index
`stack[sp]` panics (`none`) when `sp` is not below 16. -/
def Chip8.call (s : Chip8) (opcode : Nat) : Option Chip8 :=
  if h : s.sp < 16 then
    some { s with stack := Function.update s.stack ⟨s.sp, h⟩ s.pc
                  sp := s.sp + 1
                  pc := opcode &&& 0x0FFF }
  else none

/-- Models `Chip8::se_vx`: skip next instruction if `Vx == kk`. -/
def Chip8.se_vx (s : Chip8) (x : Fin 16) (kk : Nat) : Chip8 :=
  if s.v x = kk then { s with pc := s.pc + 2 } else s

/-- Models `Chip8::sne_vx`: skip next instruction if `Vx != kk`. -/
def Chip8.sne_vx (s : Chip8) (x : Fin 16) (kk : Nat) : Chip8 :=
  if s.v x ≠ kk then { s with pc := s.pc + 2 } else s

/-- Models `Chip8::se_vx_vy`: skip next instruction if `Vx == Vy`. -/
def Chip8.se_vx_vy (s : Chip8) (x y : Fin 16) : Chip8 :=
  if s.v x = s.v y then { s with pc := s.pc + 2 } else s

/-- Models `Chip8::ld_vx`: `Vx = kk`. -/
def Chip8.ld_vx (s : Chip8) (x : Fin 16) (kk : Nat) : Chip8 :=
  { s with v := Function.update s.v x kk }

/-- Models `Chip8::add_vx`: `Vx = Vx.wrapping_add(kk)` (u8 wraparound). -/
def Chip8.add_vx (s : Chip8) (x : Fin 16) (kk : Nat) : Chip8 :=
  { s with v := Function.update s.v x ((s.v x + kk) % 256) }

/-- Models `Chip8::ld_vx_vy`: `Vx = Vy`. -/
def Chip8.ld_vx_vy (s : Chip8) (x y : Fin 16) : Chip8 :=
  { s with v := Function.update s.v x (s.v y) }

/-- Models `Chip8::or_vx_vy`: `Vx |= Vy`. -/
def Chip8.or_vx_vy (s : Chip8) (x y : Fin 16) : Chip8 :=
  { s with v := Function.update s.v x (s.v x ||| s.v y) }

/-- Models `Chip8::and_vx_vy`: `Vx &= Vy`. -/
def Chip8.and_vx_vy (s : Chip8) (x y : Fin 16) : Chip8 :=
  { s with v := Function.update s.v x (s.v x &&& s.v y) }

/-- Models `Chip8::xor_vx_vy`: `Vx ^= Vy`. -/
def Chip8.xor_vx_vy (s : Chip8) (x y : Fin 16) : Chip8 :=
  { s with v := Function.update s.v x (s.v x ^^^ s.v y) }

/-- Models `Chip8::add_vx_vy`: `(result, overflow) = Vx.overflowing_add(Vy)`
computed from the pre-state, then `v[x] = result`, then `v[0xF] = overflow`.
For u8 values the wrapped result is `(Vx + Vy) % 256` and the overflow flag
is `256 ≤ Vx + Vy`. -/
def Chip8.add_vx_vy (s : Chip8) (x y : Fin 16) : Chip8 :=
  let sum := s.v x + s.v y
  let s1 := { s with v := Function.update s.v x (sum % 256) }
  { s1 with v := Function.update s1.v 15 (if 256 ≤ sum then 1 else 0) }

/-- Models `Chip8::sub_vx_vy`: `(result, overflow) = Vx.overflowing_sub(Vy)`,
then `v[x] = result`, then `v[0xF] = !overflow`.  For u8 values the wrapped
result is `(Vx + 256 - Vy) % 256` and borrow occurred iff `Vx < Vy`. -/
def Chip8.sub_vx_vy (s : Chip8) (x y : Fin 16) : Chip8 :=
  let result := (s.v x + 256 - s.v y) % 256
  let s1 := { s with v := Function.update s.v x result }
  { s1 with v := Function.update s1.v 15 (if s.v x < s.v y then 0 else 1) }

/-- Models `Chip8::shr_vx`: first `v[0xF] = v[x] & 0x1`, then `v[x] >>= 1`.
Note that the second statement reads `v[x]` after the flag write, which
matters when `x = 0xF`. -/
def Chip8.shr_vx (s : Chip8) (x : Fin 16) : Chip8 :=
  let s1 := { s with v := Function.update s.v 15 (s.v x &&& 0x1) }
  { s1 with v := Function.update s1.v x (s1.v x >>> 1) }

/-- Models `Chip8::subn_vx_vy`: `(result, overflow) = Vy.overflowing_sub(Vx)`,
then `v[x] = result`, then `v[0xF] = !overflow`. -/
def Chip8.subn_vx_vy (s : Chip8) (x y : Fin 16) : Chip8 :=
  let result := (s.v y + 256 - s.v x) % 256
  let s1 := { s with v := Function.update s.v x result }
  { s1 with v := Function.update s1.v 15 (if s.v y < s.v x then 0 else 1) }

/-- Models `Chip8::shl_vx`: first `v[0xF] = (v[x] & 0x80) >> 7`, then
`v[x] <<= 1` (u8 shift, the high bit is discarded).  The second statement
reads `v[x]` after the flag write, which matters when `x = 0xF`. -/
def Chip8.shl_vx (s : Chip8) (x : Fin 16) : Chip8 :=
  let s1 := { s with v := Function.update s.v 15 ((s.v x &&& 0x80) >>> 7) }
  { s1 with v := Function.update s1.v x ((s1.v x <<< 1) % 256) }

/-- Models `Chip8::sne_vx_vy`: skip next instruction if `Vx != Vy`. -/
def Chip8.sne_vx_vy (s : Chip8) (x y : Fin 16) : Chip8 :=
  if s.v x ≠ s.v y then { s with pc := s.pc + 2 } else s

/-- Models `Chip8::ld_i`: `I = nnn`. -/
def Chip8.ld_i (s : Chip8) (nnn : Nat) : Chip8 :=
  { s with i := nnn }

/-- Models `Chip8::jp_v0`: `pc = nnn + V0` (u16 addition; `nnn ≤ 0xFFF` and
`V0 ≤ 255`, so it never overflows). -/
def Chip8.jp_v0 (s : Chip8) (nnn : Nat) : Chip8 :=
  { s with pc := nnn + s.v 0 }

/-- Models `Chip8::rnd`: `Vx = random_byte & kk`.  The random byte drawn from
`rand::random()` is passed in as the oracle `random_byte`. -/
def Chip8.rnd (s : Chip8) (x : Fin 16) (kk random_byte : Nat) : Chip8 :=
  { s with v := Function.update s.v x (random_byte &&& kk) }

/-- Destination cell of a sprite bit: `index = final_y * 64 + final_x` with
`final_x = (start_x + xline) % 64` and `final_y = (start_y + yline) % 32`. -/
def pixelIndex (start_x start_y xline yline : Nat) : Fin 2048 :=
  ⟨((start_y + yline) % 32) * 64 + ((start_x + xline) % 64), by omega⟩

/-- The inner loop of `Chip8::drw` over the bits of one sprite row, carrying
the screen and the collision flag; the loop is run on `List.range 8`
(`for xline in 0..8`). -/
def drwRow (sprite_data start_x start_y yline : Nat) :
    List Nat → (Fin 2048 → Nat) → Nat → (Fin 2048 → Nat) × Nat
  | [], screen, vf => (screen, vf)
  | xline :: rest, screen, vf =>
    if sprite_data &&& (0x80 >>> xline) ≠ 0 then
      drwRow sprite_data start_x start_y yline rest
        (Function.update screen (pixelIndex start_x start_y xline yline)
          (screen (pixelIndex start_x start_y xline yline) ^^^ 0xFFFFFF))
        (if screen (pixelIndex start_x start_y xline yline) = 0xFFFFFF then 1 else vf)
    else
      drwRow sprite_data start_x start_y yline rest screen vf

/-- The outer loop of `Chip8::drw` over the sprite rows (`for yline in 0..n`,
run on `List.range n`): each row reads
`memory[(i + yline) as u16 as usize]`, panicking (`none`) when that address
is not below 4096. -/
def drwRows (mem : Fin 4096 → Nat) (i start_x start_y : Nat) :
    List Nat → (Fin 2048 → Nat) → Nat → Option ((Fin 2048 → Nat) × Nat)
  | [], screen, vf => some (screen, vf)
  | yline :: rest, screen, vf =>
    if h : (i + yline) % 65536 < 4096 then
      let acc := drwRow (mem ⟨(i + yline) % 65536, h⟩) start_x start_y yline
        (List.range 8) screen vf
      drwRows mem i start_x start_y rest acc.1 acc.2
    else none

/-- Models `Chip8::drw`: read the start coordinates from `v[x]`, `v[y]`,
reset `v[0xF]`, then XOR the n-row sprite at `memory[i..]` onto the screen,
recording a collision in `v[0xF]`. -/
def Chip8.drw (s : Chip8) (x y : Fin 16) (n : Nat) : Option Chip8 :=
  match drwRows s.memory s.i (s.v x) (s.v y) (List.range n) s.interface.screen 0 with
  | none => none
  | some acc =>
    some { s with v := Function.update s.v 15 acc.2
                  interface := { s.interface with screen := acc.1 } }

/-- Models `Chip8::skp`: skip if `keypad[v[x]]`; the index panics (`none`)
when `v[x]` is not below 16. -/
def Chip8.skp (s : Chip8) (x : Fin 16) : Option Chip8 :=
  if h : s.v x < 16 then
    if s.interface.keypad ⟨s.v x, h⟩ then some { s with pc := s.pc + 2 } else some s
  else none

/-- Models `Chip8::sknp`: skip if `!keypad[v[x]]`; the index panics (`none`)
when `v[x]` is not below 16. -/
def Chip8.sknp (s : Chip8) (x : Fin 16) : Option Chip8 :=
  if h : s.v x < 16 then
    if s.interface.keypad ⟨s.v x, h⟩ then some s else some { s with pc := s.pc + 2 }
  else none

/-- Models `Chip8::ld_vx_dt`: `Vx = delay_timer`. -/
def Chip8.ld_vx_dt (s : Chip8) (x : Fin 16) : Chip8 :=
  { s with v := Function.update s.v x s.delay_timer }

/-- The loop of `Chip8::ld_vx_k` (`for i in 0..16`), run over
`List.finRange 16`: at the first pressed key the handler stores the key index
into `Vx` and returns; if the loop falls through, `pc -= 2`. -/
def ld_vx_k_loop (s : Chip8) (x : Fin 16) : List (Fin 16) → Chip8
  | [] => { s with pc := s.pc - 2 }
  | k :: rest =>
    if s.interface.keypad k then { s with v := Function.update s.v x k.val }
    else ld_vx_k_loop s x rest

/-- Models `Chip8::ld_vx_k`: wait for a key press (see `ld_vx_k_loop`). -/
def Chip8.ld_vx_k (s : Chip8) (x : Fin 16) : Chip8 :=
  ld_vx_k_loop s x (List.finRange 16)

/-- Models `Chip8::ld_dt_vx`: `delay_timer = Vx`. -/
def Chip8.ld_dt_vx (s : Chip8) (x : Fin 16) : Chip8 :=
  { s with delay_timer := s.v x }

/-- Models `Chip8::ld_st_vx`: `sound_timer = Vx`. -/
def Chip8.ld_st_vx (s : Chip8) (x : Fin 16) : Chip8 :=
  { s with sound_timer := s.v x }

/-- Models `Chip8::add_i_vx`: `I += Vx` (u16 addition, wrapping in release
builds). -/
def Chip8.add_i_vx (s : Chip8) (x : Fin 16) : Chip8 :=
  { s with i := (s.i + s.v x) % 65536 }

/-- Models `Chip8::ld_f_vx`: `I = Vx * 5`. -/
def Chip8.ld_f_vx (s : Chip8) (x : Fin 16) : Chip8 :=
  { s with i := s.v x * 5 }

/-- Models `Chip8::ld_b_vx`: BCD of `Vx` written at `I`, `I+1`, `I+2`
(u16 address arithmetic; each write panics when out of bounds). -/
def Chip8.ld_b_vx (s : Chip8) (x : Fin 16) : Option Chip8 :=
  match writeMem s s.i (s.v x / 100) with
  | none => none
  | some s1 =>
    match writeMem s1 ((s.i + 1) % 65536) (s.v x / 10 % 10) with
    | none => none
    | some s2 => writeMem s2 ((s.i + 2) % 65536) (s.v x % 10)

/-- The loop of `Chip8::ld_i_vx` (`for i in 0..=x`), run over the register
indices `[0, .., x]`: write `v[k]` to `memory[(self.i + k) as u16 as usize]`
(the writes do not change the index register, so `s.i` stays the original
`self.i`). -/
def ld_i_vx_loop (s : Chip8) : List (Fin 16) → Option Chip8
  | [] => some s
  | k :: rest =>
    match writeMem s ((s.i + k.val) % 65536) (s.v k) with
    | none => none
    | some s1 => ld_i_vx_loop s1 rest

/-- Models `Chip8::ld_i_vx`: store registers V0 through Vx at `I..`. -/
def Chip8.ld_i_vx (s : Chip8) (x : Fin 16) : Option Chip8 :=
  ld_i_vx_loop s ((List.finRange 16).take (x.val + 1))

/-- The loop of `Chip8::ld_vx_i` (`for i in 0..=x`), run over the register
indices `[0, .., x]`: read `memory[(self.i + k) as u16 as usize]` into
`v[k]`. -/
def ld_vx_i_loop (s : Chip8) : List (Fin 16) → Option Chip8
  | [] => some s
  | k :: rest =>
    match readMem s ((s.i + k.val) % 65536) with
    | none => none
    | some b => ld_vx_i_loop { s with v := Function.update s.v k b } rest

/-- Models `Chip8::ld_vx_i`: read registers V0 through Vx from `I..`. -/
def Chip8.ld_vx_i (s : Chip8) (x : Fin 16) : Option Chip8 :=
  ld_vx_i_loop s ((List.finRange 16).take (x.val + 1))

/-- The second statement of `Chip8::update_timers`: the sound-timer branch,
applied to the state after the delay-timer branch. -/
def updateTimersSound (s1 : Chip8) : Chip8 :=
  if s1.sound_timer > 0 then
    { s1 with interface := s1.interface.set_beep true
              sound_timer := s1.sound_timer - 1 }
  else
    { s1 with interface := s1.interface.set_beep false }

/-- Models `Chip8::update_timers`: decrement each nonzero timer, and set the
beep flag from the sound timer before its decrement. -/
def Chip8.update_timers (s : Chip8) : Chip8 :=
  updateTimersSound
    (if s.delay_timer > 0 then { s with delay_timer := s.delay_timer - 1 } else s)

/-- The x operand: `((opcode & 0x0F00) >> 8)`, always below 16. -/
def nibX (opcode : Nat) : Fin 16 :=
  ⟨(opcode &&& 0x0F00) >>> 8, by
    have h : opcode &&& 0x0F00 ≤ 0x0F00 := Nat.and_le_right
    simp only [Nat.shiftRight_eq_div_pow]
    omega⟩

/-- The y operand: `((opcode & 0x00F0) >> 4)`, always below 16. -/
def nibY (opcode : Nat) : Fin 16 :=
  ⟨(opcode &&& 0x00F0) >>> 4, by
    have h : opcode &&& 0x00F0 ≤ 0x00F0 := Nat.and_le_right
    simp only [Nat.shiftRight_eq_div_pow]
    omega⟩

/-- The inner `match opcode & 0x00FF` of the `0x0000` arm of
`Chip8::execute_instruction`; the catch-all only logs the unknown opcode. -/
def Chip8.dispatch0 (s : Chip8) (opcode : Nat) : Option Chip8 :=
  if opcode &&& 0x00FF = 0x00E0 then some s.cls
  else if opcode &&& 0x00FF = 0x00EE then s.ret
  else some s

/-- The inner `match opcode & 0x000F` of the `0x8000` arm of
`Chip8::execute_instruction`. -/
def Chip8.dispatch8 (s : Chip8) (opcode : Nat) : Option Chip8 :=
  if opcode &&& 0x000F = 0x0000 then some (s.ld_vx_vy (nibX opcode) (nibY opcode))
  else if opcode &&& 0x000F = 0x0001 then some (s.or_vx_vy (nibX opcode) (nibY opcode))
  else if opcode &&& 0x000F = 0x0002 then some (s.and_vx_vy (nibX opcode) (nibY opcode))
  else if opcode &&& 0x000F = 0x0003 then some (s.xor_vx_vy (nibX opcode) (nibY opcode))
  else if opcode &&& 0x000F = 0x0004 then some (s.add_vx_vy (nibX opcode) (nibY opcode))
  else if opcode &&& 0x000F = 0x0005 then some (s.sub_vx_vy (nibX opcode) (nibY opcode))
  else if opcode &&& 0x000F = 0x0006 then some (s.shr_vx (nibX opcode))
  else if opcode &&& 0x000F = 0x0007 then some (s.subn_vx_vy (nibX opcode) (nibY opcode))
  else if opcode &&& 0x000F = 0x000E then some (s.shl_vx (nibX opcode))
  else some s

/-- The inner `match opcode & 0x00FF` of the `0xE000` arm of
`Chip8::execute_instruction`. -/
def Chip8.dispatchE (s : Chip8) (opcode : Nat) : Option Chip8 :=
  if opcode &&& 0x00FF = 0x009E then s.skp (nibX opcode)
  else if opcode &&& 0x00FF = 0x00A1 then s.sknp (nibX opcode)
  else some s

/-- The inner `match opcode & 0x00FF` of the `0xF000` arm of
`Chip8::execute_instruction`. -/
def Chip8.dispatchF (s : Chip8) (opcode : Nat) : Option Chip8 :=
  if opcode &&& 0x00FF = 0x0007 then some (s.ld_vx_dt (nibX opcode))
  else if opcode &&& 0x00FF = 0x000A then some (s.ld_vx_k (nibX opcode))
  else if opcode &&& 0x00FF = 0x0015 then some (s.ld_dt_vx (nibX opcode))
  else if opcode &&& 0x00FF = 0x0018 then some (s.ld_st_vx (nibX opcode))
  else if opcode &&& 0x00FF = 0x001E then some (s.add_i_vx (nibX opcode))
  else if opcode &&& 0x00FF = 0x0029 then some (s.ld_f_vx (nibX opcode))
  else if opcode &&& 0x00FF = 0x0033 then s.ld_b_vx (nibX opcode)
  else if opcode &&& 0x00FF = 0x0055 then s.ld_i_vx (nibX opcode)
  else if opcode &&& 0x00FF = 0x0065 then s.ld_vx_i (nibX opcode)
  else some s

/-- The `match opcode & 0xF000` dispatch of `Chip8::execute_instruction`,
applied to the state whose pc was already advanced by 2; the nested Rust
`match`es on the secondary discriminants are the four sub-dispatch functions,
and the catch-all arms only log the unknown opcode, leaving the state
unchanged.  `random_byte` is the oracle for `rand::random()` in the `0xC000`
arm. -/
def Chip8.dispatch (s : Chip8) (opcode random_byte : Nat) : Option Chip8 :=
  if opcode &&& 0xF000 = 0x0000 then s.dispatch0 opcode
  else if opcode &&& 0xF000 = 0x1000 then some (s.jp opcode)
  else if opcode &&& 0xF000 = 0x2000 then s.call opcode
  else if opcode &&& 0xF000 = 0x3000 then some (s.se_vx (nibX opcode) (opcode &&& 0x00FF))
  else if opcode &&& 0xF000 = 0x4000 then some (s.sne_vx (nibX opcode) (opcode &&& 0x00FF))
  else if opcode &&& 0xF000 = 0x5000 then some (s.se_vx_vy (nibX opcode) (nibY opcode))
  else if opcode &&& 0xF000 = 0x6000 then some (s.ld_vx (nibX opcode) (opcode &&& 0x00FF))
  else if opcode &&& 0xF000 = 0x7000 then some (s.add_vx (nibX opcode) (opcode &&& 0x00FF))
  else if opcode &&& 0xF000 = 0x8000 then s.dispatch8 opcode
  else if opcode &&& 0xF000 = 0x9000 then some (s.sne_vx_vy (nibX opcode) (nibY opcode))
  else if opcode &&& 0xF000 = 0xA000 then some (s.ld_i (opcode &&& 0x0FFF))
  else if opcode &&& 0xF000 = 0xB000 then some (s.jp_v0 (opcode &&& 0x0FFF))
  else if opcode &&& 0xF000 = 0xC000 then some (s.rnd (nibX opcode) (opcode &&& 0x00FF) random_byte)
  else if opcode &&& 0xF000 = 0xD000 then s.drw (nibX opcode) (nibY opcode) (opcode &&& 0x000F)
  else if opcode &&& 0xF000 = 0xE000 then s.dispatchE opcode
  else if opcode &&& 0xF000 = 0xF000 then s.dispatchF opcode
  else some s

/-- Models `Chip8::execute_instruction`: `pc += 2` before anything executes,
then dispatch on the opcode (see `Chip8.dispatch`). -/
def Chip8.execute_instruction (s0 : Chip8) (opcode random_byte : Nat) : Option Chip8 :=
  Chip8.dispatch { s0 with pc := s0.pc + 2 } opcode random_byte

/-- Models `Chip8::fetch_instruction`: big-endian 16-bit word at `pc`, `pc+1`
(the byte reads panic when out of the 4096-byte memory). -/
def Chip8.fetch_instruction (s : Chip8) : Option Nat := do
  let high_byte ← readMem s s.pc
  let low_byte ← readMem s ((s.pc + 1) % 65536)
  pure ((high_byte <<< 8) ||| low_byte)

/-- Models `Chip8::emulate_cycle`: fetch, execute, then `update_timers`. -/
def Chip8.emulate_cycle (s : Chip8) (random_byte : Nat) : Option Chip8 := do
  let instruction ← s.fetch_instruction
  let s1 ← s.execute_instruction instruction random_byte
  pure s1.update_timers

/-- The all-zero machine produced by `Chip8::new(Interface::new(..))`. -/
def zeroState : Chip8 := Chip8.new Interface.new

/-- C6: `add-reg` stores `(Vx + Vy) mod 256` into Vx and then unconditionally
overwrites VF with 1 if the unsigned sum exceeds 255 (i.e. is at least 256)
and with 0 otherwise; the two writes happen in that order, so the statement
holds even when x or y equals 0xF.  Memory and pc are untouched. -/
theorem c6_add_reg_carry (s : Chip8) (x y : Fin 16) :
    (s.add_vx_vy x y).v =
      Function.update (Function.update s.v x ((s.v x + s.v y) % 256)) 15
        (if 256 ≤ s.v x + s.v y then 1 else 0) ∧
    (s.add_vx_vy x y).pc = s.pc ∧
    (s.add_vx_vy x y).memory = s.memory :=
  ⟨rfl, rfl, rfl⟩

set_option maxRecDepth 4096 in
/-- C9: one `update_timers` call decrements each timer by one when nonzero
and leaves it at zero otherwise (in `Nat`, truncated subtraction by one is
exactly that floor-at-zero decrement), and the beep flag is set exactly when
the sound timer before the decrement was positive. -/
theorem c9_tick_timers (s : Chip8) :
    s.update_timers.delay_timer = s.delay_timer - 1 ∧
    s.update_timers.sound_timer = s.sound_timer - 1 ∧
    (s.update_timers.interface.is_beeping = true ↔ 0 < s.sound_timer) := by
  unfold Chip8.update_timers updateTimersSound Interface.set_beep
  by_cases hd : s.delay_timer > 0 <;> by_cases hs : s.sound_timer > 0 <;>
    simp [hd, hs] <;> omega

/-- A state whose VF register holds 1, with all other registers zero. -/
def c2state : Chip8 := { zeroState with v := Function.update zeroState.v 15 1 }

/-- A state whose VF register holds 0x80, with all other registers zero. -/
def c2state' : Chip8 := { zeroState with v := Function.update zeroState.v 15 0x80 }

/-- C2 counterexample: with x = 0xF, shift-right on a state with VF = 1 does
not leave the evicted (low) bit in VF, and shift-left on a state with
VF = 0x80 does not leave the evicted (high) bit in VF: the flag write happens
before the shift and the shift is then applied to the flag register itself. -/
theorem c2_counterexample :
    ¬ ((c2state.shr_vx 15).v 15 = c2state.v 15 &&& 0x1) ∧
    ¬ ((c2state'.shl_vx 15).v 15 = (c2state'.v 15 &&& 0x80) >>> 7) := by
  decide

/-- C2 amended: for every x other than 0xF, shift-right sets VF to the
pre-shift low bit of Vx and halves Vx, shift-left sets VF to the pre-shift
high bit and doubles Vx mod 256, and no other register changes; when
x = 0xF the flag write happens first and is then itself shifted, so
shift-right leaves VF = (VF & 1) >> 1 (that is, 0) and shift-left leaves
VF = (((VF & 0x80) >> 7) << 1) mod 256 (that is, twice the high bit). -/
theorem c2_shift_amended (s : Chip8) (x : Fin 16) (hx : x ≠ 15) :
    (s.shr_vx x).v 15 = s.v x &&& 0x1 ∧
    (s.shr_vx x).v x = s.v x >>> 1 ∧
    (s.shl_vx x).v 15 = (s.v x &&& 0x80) >>> 7 ∧
    (s.shl_vx x).v x = (s.v x <<< 1) % 256 ∧
    (∀ j : Fin 16, j ≠ x → j ≠ 15 →
      (s.shr_vx x).v j = s.v j ∧ (s.shl_vx x).v j = s.v j) ∧
    (s.shr_vx 15).v 15 = (s.v 15 &&& 0x1) >>> 1 ∧
    (s.shl_vx 15).v 15 = (((s.v 15 &&& 0x80) >>> 7) <<< 1) % 256 := by
  have hx' : (15 : Fin 16) ≠ x := Ne.symm hx
  unfold Chip8.shr_vx Chip8.shl_vx
  refine ⟨?_, ?_, ?_, ?_, ?_, ?_, ?_⟩
  · simp [Function.update_noteq hx', Function.update_same]
  · simp [Function.update_noteq hx, Function.update_same]
  · simp [Function.update_noteq hx', Function.update_same]
  · simp [Function.update_noteq hx, Function.update_same]
  · intro j hj hj15
    constructor <;>
      simp [Function.update_noteq hj, Function.update_noteq hj15]
  · simp [Function.update_same]
  · simp [Function.update_same]

/-- C2 amended, witnessed at x = 3 on the zero state. -/
theorem c2_shift_amended_witness :
    (zeroState.shr_vx 3).v 15 = zeroState.v 3 &&& 0x1 ∧
    (zeroState.shr_vx 3).v 3 = zeroState.v 3 >>> 1 ∧
    (zeroState.shl_vx 3).v 15 = (zeroState.v 3 &&& 0x80) >>> 7 ∧
    (zeroState.shl_vx 3).v 3 = (zeroState.v 3 <<< 1) % 256 ∧
    (∀ j : Fin 16, j ≠ 3 → j ≠ 15 →
      (zeroState.shr_vx 3).v j = zeroState.v j ∧
      (zeroState.shl_vx 3).v j = zeroState.v j) ∧
    (zeroState.shr_vx 15).v 15 = (zeroState.v 15 &&& 0x1) >>> 1 ∧
    (zeroState.shl_vx 15).v 15 = (((zeroState.v 15 &&& 0x80) >>> 7) <<< 1) % 256 :=
  c2_shift_amended zeroState 3 (by decide)

/-- A state with both timers running and the two-byte instruction 0x1200
(jump to 0x200, not a timer opcode) at pc = 0x200. -/
def c1state : Chip8 :=
  { zeroState with
      delay_timer := 1
      sound_timer := 2
      memory := fun a => if a.val = 0x200 then 0x12 else 0 }

/-- C1 evaluation: `emulate_cycle` on `c1state` fetches the jump opcode
0x1200 — not a load of either timer — yet the cycle decrements both timers
(delay 1 to 0, sound 2 to 1), because `emulate_cycle` calls `update_timers`
after every executed instruction rather than leaving timer decay to a
separate fixed-rate tick operation. -/
theorem c1_cycle_ticks_timers :
    c1state.fetch_instruction = some 0x1200 ∧
    (c1state.emulate_cycle 0).map
        (fun s1 => (s1.delay_timer, s1.sound_timer, s1.pc)) =
      some (0, 1, 0x200) :=
  ⟨rfl, rfl⟩

/-- A state whose call stack is full (`sp = 16`). -/
def c3full : Chip8 := { zeroState with sp := 16 }

/-- C3 evaluation: a call-subroutine with the stack full panics on the
out-of-bounds index `stack[16]` (modelled `none`), and a return with the
stack empty panics on the stack-pointer underflow (modelled `none`); no
StackOverflow or StackUnderflow error value exists anywhere in the code and
nothing is surfaced to the host — the process aborts. -/
theorem c3_stack_misuse_panics :
    c3full.call 0x2345 = none ∧
    zeroState.ret = none ∧
    Chip8.execute_instruction c3full 0x2345 0 = none ∧
    Chip8.execute_instruction zeroState 0x00EE 0 = none :=
  ⟨rfl, rfl, rfl, rfl⟩

/-- A state with `I = 4095` so that multi-byte accesses from `I` run past the
end of memory, and `V0 = 137`. -/
def c4state : Chip8 :=
  { zeroState with i := 4095, v := Function.update zeroState.v 0 137 }

/-- C4 evaluation: with `I = 4095` the BCD store touches `memory[4096]` and
panics (modelled `none`) — the first byte has already been written when the
panic happens, and no OutOfBoundsAccess error value is produced; a two-row
sprite read from `I = 4095` panics the same way; with every computed address
below 4096 the same operations succeed. -/
theorem c4_oob_access_panics :
    c4state.ld_b_vx 0 = none ∧
    Chip8.execute_instruction c4state 0xF033 0 = none ∧
    c4state.drw 0 1 2 = none ∧
    (({ zeroState with i := 0x300 } : Chip8).ld_b_vx 0).isSome = true ∧
    (({ zeroState with i := 0x300 } : Chip8).ld_vx_i 5).isSome = true :=
  ⟨rfl, rfl, rfl, rfl, rfl⟩

/-- C5 evaluation: loading a 3585-byte ROM (one more than the 3584 bytes of
space above 0x200) panics on the out-of-range slice (modelled `none`) instead
of returning a LoadError, while a fitting ROM is copied verbatim to
0x200.. and leaves the rest of memory — including the font byte 0xF0 at
address 0 — unchanged. -/
theorem c5_load_program_bounds :
    (zeroState.load_program (List.replicate 3585 0)).isSome = false ∧
    ((zeroState.load_program [0xAB, 0xCD]).map
        (fun s1 => (memGet s1.memory 0x200, memGet s1.memory 0x201,
                    memGet s1.memory 0x202, memGet s1.memory 0, s1.pc))) =
      some (0xAB, 0xCD, 0, 0xF0, 0x200) := by
  constructor
  · have h : ¬ (0x200 + (List.replicate 3585 (0 : Nat)).length ≤ 4096) := by
      rw [List.length_replicate]; omega
    unfold Chip8.load_program
    rw [if_neg h]
    rfl
  · rfl

/-- If no key in the remaining list is pressed, the wait-key loop falls
through and rewinds pc by 2. -/
theorem ld_vx_k_loop_no_key (s : Chip8) (x : Fin 16) (ks : List (Fin 16))
    (h : ∀ k ∈ ks, s.interface.keypad k = false) :
    ld_vx_k_loop s x ks = { s with pc := s.pc - 2 } := by
  induction ks with
  | nil => rfl
  | cons k rest ih =>
    have hk := h k (List.mem_cons_self k rest)
    simp only [ld_vx_k_loop, hk, Bool.false_eq_true, if_false]
    exact ih (fun j hj => h j (List.mem_cons_of_mem k hj))

/-- If the remaining list is sorted and contains the lowest pressed key, the
wait-key loop stores that key index into Vx. -/
theorem ld_vx_k_loop_lowest (s : Chip8) (x : Fin 16) (ks : List (Fin 16)) (k0 : Fin 16)
    (hsorted : ks.Pairwise (· < ·)) (hmem : k0 ∈ ks)
    (hk0 : s.interface.keypad k0 = true)
    (hmin : ∀ j ∈ ks, s.interface.keypad j = true → k0 ≤ j) :
    ld_vx_k_loop s x ks = { s with v := Function.update s.v x k0.val } := by
  induction ks with
  | nil => cases hmem
  | cons k rest ih =>
    by_cases hk : s.interface.keypad k = true
    · have hle : k0 ≤ k := hmin k (List.mem_cons_self k rest) hk
      have hk0k : k0 = k := by
        rcases List.mem_cons.mp hmem with h1 | h1
        · exact h1
        · exact absurd hle (not_le.mpr ((List.pairwise_cons.mp hsorted).1 k0 h1))
      subst hk0k
      simp only [ld_vx_k_loop, hk, if_true]
    · have hkf : s.interface.keypad k = false := by
        cases hb : s.interface.keypad k
        · rfl
        · exact absurd hb hk
      have hmem' : k0 ∈ rest := by
        rcases List.mem_cons.mp hmem with h1 | h1
        · exact absurd (h1 ▸ hk0) hk
        · exact h1
      simp only [ld_vx_k_loop, hkf, Bool.false_eq_true, if_false]
      exact ih (List.pairwise_cons.mp hsorted).2 hmem'
        (fun j hj hjp => hmin j (List.mem_cons_of_mem k hj) hjp)

/-- With no key pressed, `ld_vx_k` rewinds pc by 2 and changes nothing else. -/
theorem ld_vx_k_no_key (s : Chip8) (x : Fin 16)
    (h : ∀ k : Fin 16, s.interface.keypad k = false) :
    s.ld_vx_k x = { s with pc := s.pc - 2 } :=
  ld_vx_k_loop_no_key s x _ (fun k _ => h k)

/-- With `k0` the lowest-indexed pressed key, `ld_vx_k` stores `k0` into Vx. -/
theorem ld_vx_k_lowest (s : Chip8) (x k0 : Fin 16)
    (hk0 : s.interface.keypad k0 = true)
    (hmin : ∀ j : Fin 16, j < k0 → s.interface.keypad j = false) :
    s.ld_vx_k x = { s with v := Function.update s.v x k0.val } :=
  ld_vx_k_loop_lowest s x _ k0 (List.pairwise_lt_finRange 16) (List.mem_finRange k0)
    hk0
    (fun j _ hjp => le_of_not_lt (fun hlt => by rw [hmin j hlt] at hjp; cases hjp))

/-- C8: executing the wait-for-key opcode 0xFx0A when no key is pressed
returns the state completely unchanged (pc advanced by 2 during decode, then
rewound by 2, so the same instruction is re-fetched next step, and every
register is untouched); when some key is pressed, the lowest-indexed pressed
key `k0` is stored into Vx and pc stays advanced by 2. -/
theorem c8_wait_for_key (s : Chip8) (x : Fin 16) (r : Nat) :
    ((∀ k : Fin 16, s.interface.keypad k = false) →
      Chip8.execute_instruction s (0xF00A + x.val * 256) r = some s) ∧
    (∀ k0 : Fin 16, s.interface.keypad k0 = true →
      (∀ j : Fin 16, j < k0 → s.interface.keypad j = false) →
      Chip8.execute_instruction s (0xF00A + x.val * 256) r =
        some { s with pc := s.pc + 2, v := Function.update s.v x k0.val }) := by
  have hexec : Chip8.execute_instruction s (0xF00A + x.val * 256) r =
      some (({ s with pc := s.pc + 2 } : Chip8).ld_vx_k x) := by
    fin_cases x <;> rfl
  constructor
  · intro h
    rw [hexec, ld_vx_k_no_key ({ s with pc := s.pc + 2 }) x h]
    rfl
  · intro k0 hk0 hmin
    rw [hexec, ld_vx_k_lowest ({ s with pc := s.pc + 2 }) x k0 hk0 hmin]

/-- A state in which exactly key 2 of the keypad is pressed. -/
def c8keyState : Chip8 :=
  { zeroState with interface :=
      { zeroState.interface with
          keypad := Function.update zeroState.interface.keypad 2 true } }

/-- C8 witnessed: on the zero state (no key pressed) opcode 0xF30A returns
the state unchanged; with exactly key 2 pressed, opcode 0xF00A stores 2 in V0
and advances pc by 2. -/
theorem c8_wait_for_key_witness :
    Chip8.execute_instruction zeroState 0xF30A 0 = some zeroState ∧
    Chip8.execute_instruction c8keyState 0xF00A 0 =
      some { c8keyState with pc := c8keyState.pc + 2
                             v := Function.update c8keyState.v 0 2 } :=
  ⟨(c8_wait_for_key zeroState 3 0).1 (fun _ => rfl),
   (c8_wait_for_key c8keyState 0 0).2 2 (by decide) (by decide)⟩

/-- The display invariant: every screen cell is 0 (off) or 0xFFFFFF (on). -/
def ScreenWF (scr : Fin 2048 → Nat) : Prop :=
  ∀ p : Fin 2048, scr p = 0 ∨ scr p = 0xFFFFFF

/-- The inner draw loop only XORs cells with 0xFFFFFF, so it preserves the
display invariant. -/
theorem drwRow_WF (sprite sx sy yl : Nat) (xs : List Nat)
    (screen : Fin 2048 → Nat) (vf : Nat) (h : ScreenWF screen) :
    ScreenWF (drwRow sprite sx sy yl xs screen vf).1 := by
  induction xs generalizing screen vf with
  | nil => exact h
  | cons c rest ih =>
    by_cases hb : sprite &&& (0x80 >>> c) ≠ 0
    · simp only [drwRow, if_pos hb]
      refine ih _ _ ?_
      intro p
      by_cases hp : p = pixelIndex sx sy c yl
      · subst hp
        rw [Function.update_same]
        rcases h (pixelIndex sx sy c yl) with h0 | h1
        · rw [h0]; right; rfl
        · rw [h1]; left; rfl
      · rw [Function.update_noteq hp]
        exact h p
    · simp only [drwRow, if_neg hb]
      exact ih _ _ h

/-- The outer draw loop preserves the display invariant. -/
theorem drwRows_WF (mem : Fin 4096 → Nat) (i sx sy : Nat) (ys : List Nat)
    (screen : Fin 2048 → Nat) (vf : Nat) (out : (Fin 2048 → Nat) × Nat)
    (hrun : drwRows mem i sx sy ys screen vf = some out)
    (h : ScreenWF screen) : ScreenWF out.1 := by
  induction ys generalizing screen vf with
  | nil =>
    simp only [drwRows] at hrun
    cases hrun
    exact h
  | cons yl rest ih =>
    simp only [drwRows] at hrun
    split at hrun
    · exact ih _ _ hrun (drwRow_WF _ _ _ _ _ _ _ h)
    · cases hrun

/-- A successful draw preserves the display invariant. -/
theorem drw_WF (s : Chip8) (x y : Fin 16) (n : Nat) (s1 : Chip8)
    (hrun : s.drw x y n = some s1) (h : ScreenWF s.interface.screen) :
    ScreenWF s1.interface.screen := by
  unfold Chip8.drw at hrun
  split at hrun
  · cases hrun
  · rename_i acc heq
    cases hrun
    exact drwRows_WF _ _ _ _ _ _ _ _ heq h

theorem se_vx_interface (s : Chip8) (x : Fin 16) (kk : Nat) :
    (s.se_vx x kk).interface = s.interface := by
  unfold Chip8.se_vx; split <;> rfl

theorem sne_vx_interface (s : Chip8) (x : Fin 16) (kk : Nat) :
    (s.sne_vx x kk).interface = s.interface := by
  unfold Chip8.sne_vx; split <;> rfl

theorem se_vx_vy_interface (s : Chip8) (x y : Fin 16) :
    (s.se_vx_vy x y).interface = s.interface := by
  unfold Chip8.se_vx_vy; split <;> rfl

theorem sne_vx_vy_interface (s : Chip8) (x y : Fin 16) :
    (s.sne_vx_vy x y).interface = s.interface := by
  unfold Chip8.sne_vx_vy; split <;> rfl

theorem ld_vx_k_loop_interface (s : Chip8) (x : Fin 16) (ks : List (Fin 16)) :
    (ld_vx_k_loop s x ks).interface = s.interface := by
  induction ks with
  | nil => rfl
  | cons k rest ih =>
    by_cases hk : s.interface.keypad k = true
    · simp only [ld_vx_k_loop, hk, if_true]
    · have hkf : s.interface.keypad k = false := by
        cases hb : s.interface.keypad k
        · rfl
        · exact absurd hb hk
      simp only [ld_vx_k_loop, hkf, Bool.false_eq_true, if_false]
      exact ih

theorem writeMem_interface (s : Chip8) (a b : Nat) (s1 : Chip8)
    (h : writeMem s a b = some s1) : s1.interface = s.interface := by
  unfold writeMem at h
  split at h
  · cases h; rfl
  · cases h

theorem ret_interface (s s1 : Chip8) (h : s.ret = some s1) :
    s1.interface = s.interface := by
  unfold Chip8.ret at h
  split at h
  · cases h
  · split at h
    · cases h; rfl
    · cases h

theorem call_interface (s : Chip8) (op : Nat) (s1 : Chip8) (h : s.call op = some s1) :
    s1.interface = s.interface := by
  unfold Chip8.call at h
  split at h
  · cases h; rfl
  · cases h

theorem skp_interface (s : Chip8) (x : Fin 16) (s1 : Chip8) (h : s.skp x = some s1) :
    s1.interface = s.interface := by
  unfold Chip8.skp at h
  split at h
  · split at h <;> (cases h; rfl)
  · cases h

theorem sknp_interface (s : Chip8) (x : Fin 16) (s1 : Chip8) (h : s.sknp x = some s1) :
    s1.interface = s.interface := by
  unfold Chip8.sknp at h
  split at h
  · split at h <;> (cases h; rfl)
  · cases h

theorem ld_b_vx_interface (s : Chip8) (x : Fin 16) (s1 : Chip8)
    (h : s.ld_b_vx x = some s1) : s1.interface = s.interface := by
  unfold Chip8.ld_b_vx at h
  split at h
  · cases h
  · rename_i sa heqa
    split at h
    · cases h
    · rename_i sb heqb
      rw [writeMem_interface _ _ _ _ h, writeMem_interface _ _ _ _ heqb,
        writeMem_interface _ _ _ _ heqa]

theorem ld_i_vx_loop_interface (s : Chip8) (ks : List (Fin 16)) (s1 : Chip8)
    (h : ld_i_vx_loop s ks = some s1) : s1.interface = s.interface := by
  induction ks generalizing s with
  | nil => cases h; rfl
  | cons k rest ih =>
    simp only [ld_i_vx_loop] at h
    split at h
    · cases h
    · rename_i sa heqa
      rw [ih _ h, writeMem_interface _ _ _ _ heqa]

theorem ld_vx_i_loop_interface (s : Chip8) (ks : List (Fin 16)) (s1 : Chip8)
    (h : ld_vx_i_loop s ks = some s1) : s1.interface = s.interface := by
  induction ks generalizing s with
  | nil => cases h; rfl
  | cons k rest ih =>
    simp only [ld_vx_i_loop] at h
    split at h
    · cases h
    · rename_i b heqb
      exact ih { s with v := Function.update s.v k b } h

/-- `update_timers` does not touch the screen. -/
theorem update_timers_screen (s : Chip8) :
    s.update_timers.interface.screen = s.interface.screen := by
  unfold Chip8.update_timers updateTimersSound Interface.set_beep
  split <;> split <;> rfl

theorem dispatch0_WF (s : Chip8) (op : Nat) (s1 : Chip8)
    (hrun : s.dispatch0 op = some s1) (hwf : ScreenWF s.interface.screen) :
    ScreenWF s1.interface.screen := by
  unfold Chip8.dispatch0 at hrun
  split at hrun
  · cases hrun; intro p; exact Or.inl rfl
  · split at hrun
    · rw [ret_interface _ _ hrun]; exact hwf
    · cases hrun; exact hwf

theorem dispatch8_WF (s : Chip8) (op : Nat) (s1 : Chip8)
    (hrun : s.dispatch8 op = some s1) (hwf : ScreenWF s.interface.screen) :
    ScreenWF s1.interface.screen := by
  unfold Chip8.dispatch8 at hrun
  repeat' split at hrun
  all_goals (cases hrun; exact hwf)

theorem dispatchE_WF (s : Chip8) (op : Nat) (s1 : Chip8)
    (hrun : s.dispatchE op = some s1) (hwf : ScreenWF s.interface.screen) :
    ScreenWF s1.interface.screen := by
  unfold Chip8.dispatchE at hrun
  split at hrun
  · rw [skp_interface _ _ _ hrun]; exact hwf
  · split at hrun
    · rw [sknp_interface _ _ _ hrun]; exact hwf
    · cases hrun; exact hwf

theorem dispatchF_WF (s : Chip8) (op : Nat) (s1 : Chip8)
    (hrun : s.dispatchF op = some s1) (hwf : ScreenWF s.interface.screen) :
    ScreenWF s1.interface.screen := by
  unfold Chip8.dispatchF at hrun
  repeat' split at hrun
  all_goals
    first
    | (cases hrun; exact hwf)
    | (cases hrun; rw [Chip8.ld_vx_k, ld_vx_k_loop_interface]; exact hwf)
    | (rw [ld_b_vx_interface _ _ _ hrun]; exact hwf)
    | (rw [ld_i_vx_loop_interface _ _ _ hrun]; exact hwf)
    | (rw [ld_vx_i_loop_interface _ _ _ hrun]; exact hwf)

/-- The opcode dispatch preserves the display invariant. -/
theorem dispatch_WF (s : Chip8) (op r : Nat) (s1 : Chip8)
    (hrun : s.dispatch op r = some s1) (hwf : ScreenWF s.interface.screen) :
    ScreenWF s1.interface.screen := by
  unfold Chip8.dispatch at hrun
  by_cases h0 : op &&& 0xF000 = 0x0000
  · rw [if_pos h0] at hrun; exact dispatch0_WF _ _ _ hrun hwf
  rw [if_neg h0] at hrun
  by_cases h1 : op &&& 0xF000 = 0x1000
  · rw [if_pos h1] at hrun; cases hrun; exact hwf
  rw [if_neg h1] at hrun
  by_cases h2 : op &&& 0xF000 = 0x2000
  · rw [if_pos h2] at hrun; rw [call_interface _ _ _ hrun]; exact hwf
  rw [if_neg h2] at hrun
  by_cases h3 : op &&& 0xF000 = 0x3000
  · rw [if_pos h3] at hrun; cases hrun; rw [se_vx_interface]; exact hwf
  rw [if_neg h3] at hrun
  by_cases h4 : op &&& 0xF000 = 0x4000
  · rw [if_pos h4] at hrun; cases hrun; rw [sne_vx_interface]; exact hwf
  rw [if_neg h4] at hrun
  by_cases h5 : op &&& 0xF000 = 0x5000
  · rw [if_pos h5] at hrun; cases hrun; rw [se_vx_vy_interface]; exact hwf
  rw [if_neg h5] at hrun
  by_cases h6 : op &&& 0xF000 = 0x6000
  · rw [if_pos h6] at hrun; cases hrun; exact hwf
  rw [if_neg h6] at hrun
  by_cases h7 : op &&& 0xF000 = 0x7000
  · rw [if_pos h7] at hrun; cases hrun; exact hwf
  rw [if_neg h7] at hrun
  by_cases h8 : op &&& 0xF000 = 0x8000
  · rw [if_pos h8] at hrun; exact dispatch8_WF _ _ _ hrun hwf
  rw [if_neg h8] at hrun
  by_cases h9 : op &&& 0xF000 = 0x9000
  · rw [if_pos h9] at hrun; cases hrun; rw [sne_vx_vy_interface]; exact hwf
  rw [if_neg h9] at hrun
  by_cases hA : op &&& 0xF000 = 0xA000
  · rw [if_pos hA] at hrun; cases hrun; exact hwf
  rw [if_neg hA] at hrun
  by_cases hB : op &&& 0xF000 = 0xB000
  · rw [if_pos hB] at hrun; cases hrun; exact hwf
  rw [if_neg hB] at hrun
  by_cases hC : op &&& 0xF000 = 0xC000
  · rw [if_pos hC] at hrun; cases hrun; exact hwf
  rw [if_neg hC] at hrun
  by_cases hD : op &&& 0xF000 = 0xD000
  · rw [if_pos hD] at hrun; exact drw_WF _ _ _ _ _ hrun hwf
  rw [if_neg hD] at hrun
  by_cases hE : op &&& 0xF000 = 0xE000
  · rw [if_pos hE] at hrun; exact dispatchE_WF _ _ _ hrun hwf
  rw [if_neg hE] at hrun
  by_cases hF : op &&& 0xF000 = 0xF000
  · rw [if_pos hF] at hrun; exact dispatchF_WF _ _ _ hrun hwf
  rw [if_neg hF] at hrun
  cases hrun; exact hwf

set_option maxHeartbeats 4000000 in
/-- C10: the display invariant — every cell of the 64x32 buffer is 0 or
0xFFFFFF — holds at construction (`Interface::new` zeroes the screen), is
preserved by every executed instruction (clear-screen writes 0, draw only
XORs cells with 0xFFFFFF, nothing else touches the screen) and by
`update_timers`, and under it the draw collision test "cell = 0xFFFFFF" is
equivalent to "cell is nonzero". -/
theorem c10_display_invariant :
    ScreenWF Interface.new.screen ∧
    (∀ s : Chip8, ∀ opcode r : Nat, ∀ s1 : Chip8,
      Chip8.execute_instruction s opcode r = some s1 →
      ScreenWF s.interface.screen → ScreenWF s1.interface.screen) ∧
    (∀ s : Chip8, ScreenWF s.interface.screen →
      ScreenWF s.update_timers.interface.screen) ∧
    (∀ c : Nat, c = 0 ∨ c = 0xFFFFFF → (c = 0xFFFFFF ↔ c ≠ 0)) := by
  refine ⟨fun p => Or.inl rfl, ?_, ?_, ?_⟩
  · intro s opcode r s1 hrun hwf
    exact dispatch_WF { s with pc := s.pc + 2 } opcode r s1 hrun hwf
  · intro s hwf
    intro p
    rw [update_timers_screen]
    exact hwf p
  · intro c hc
    rcases hc with h0 | h1
    · subst h0; simp
    · subst h1; simp

/-- C10 witnessed: the invariant transported through an executed clear-screen
instruction on the zero state. -/
theorem c10_display_invariant_witness :
    ScreenWF (({ zeroState with pc := zeroState.pc + 2 } : Chip8).cls).interface.screen :=
  c10_display_invariant.2.1 zeroState 0x00E0 0 _ rfl (fun _ => Or.inl rfl)

/-- The loop condition of `Chip8::drw`: bit `c` of a sprite row is set. -/
def bitSet (sprite c : Nat) : Prop := sprite &&& (0x80 >>> c) ≠ 0

/-- The sprite row byte read by `Chip8::drw` for row `yl`, as a total
function (used in theorem statements; it agrees with the code's read whenever
the address is in bounds). -/
def spriteRow (mem : Fin 4096 → Nat) (i yl : Nat) : Nat :=
  memGet mem ((i + yl) % 65536)

theorem pixelIndex_eq_iff (sx sy c1 y1 c2 y2 : Nat) :
    pixelIndex sx sy c1 y1 = pixelIndex sx sy c2 y2 ↔
      ((sx + c1) % 64 = (sx + c2) % 64 ∧ (sy + y1) % 32 = (sy + y2) % 32) := by
  unfold pixelIndex
  rw [Fin.mk.injEq]
  constructor <;> intro h <;> omega

/-- Within one sprite row the eight bits land on pairwise distinct cells. -/
theorem pairwise_pixel_range8 (sx sy yl : Nat) :
    (List.range 8).Pairwise
      (fun a b => pixelIndex sx sy a yl ≠ pixelIndex sx sy b yl) := by
  have h := List.pairwise_lt_range 8
  refine h.imp_of_mem ?_
  intro a b ha hb hab heq
  rw [pixelIndex_eq_iff] at heq
  have ha8 := List.mem_range.mp ha
  have hb8 := List.mem_range.mp hb
  omega

theorem xor_mask_eq_mask_iff (a : Nat) :
    a ^^^ 0xFFFFFF = 0xFFFFFF ↔ a = 0 := by
  constructor
  · intro h
    have h2 := congrArg (fun t => t ^^^ 0xFFFFFF) h
    simpa [Nat.xor_cancel_right] using h2
  · intro h
    rw [h]
    rfl

/-- Pointwise characterization of one sprite row of the draw loop: a cell hit
by a set bit is XORed with the mask, other cells are untouched, and the
collision flag becomes 1 exactly when some set bit lands on a lit cell
(otherwise it keeps its input value).  Requires the bits of `xs` to target
pairwise distinct cells. -/
theorem drwRow_spec (sprite sx sy yl : Nat) (xs : List Nat)
    (screen : Fin 2048 → Nat) (vf : Nat)
    (hdist : xs.Pairwise (fun a b => pixelIndex sx sy a yl ≠ pixelIndex sx sy b yl)) :
    (∀ p : Fin 2048,
      ((∃ c ∈ xs, bitSet sprite c ∧ pixelIndex sx sy c yl = p) →
        (drwRow sprite sx sy yl xs screen vf).1 p = screen p ^^^ 0xFFFFFF) ∧
      (¬ (∃ c ∈ xs, bitSet sprite c ∧ pixelIndex sx sy c yl = p) →
        (drwRow sprite sx sy yl xs screen vf).1 p = screen p)) ∧
    ((∃ c ∈ xs, bitSet sprite c ∧ screen (pixelIndex sx sy c yl) = 0xFFFFFF) →
       (drwRow sprite sx sy yl xs screen vf).2 = 1) ∧
    (¬ (∃ c ∈ xs, bitSet sprite c ∧ screen (pixelIndex sx sy c yl) = 0xFFFFFF) →
       (drwRow sprite sx sy yl xs screen vf).2 = vf) := by
  induction xs generalizing screen vf with
  | nil =>
    refine ⟨fun p => ⟨?_, fun _ => rfl⟩, ?_, fun _ => rfl⟩
    · rintro ⟨c, hc, -⟩; cases hc
    · rintro ⟨c, hc, -⟩; cases hc
  | cons c rest ih =>
    rcases List.pairwise_cons.mp hdist with ⟨hhead, hrest⟩
    by_cases hb : sprite &&& (0x80 >>> c) ≠ 0
    · have hstep : drwRow sprite sx sy yl (c :: rest) screen vf =
        drwRow sprite sx sy yl rest
          (Function.update screen (pixelIndex sx sy c yl)
            (screen (pixelIndex sx sy c yl) ^^^ 0xFFFFFF))
          (if screen (pixelIndex sx sy c yl) = 0xFFFFFF then 1 else vf) := by
        simp only [drwRow, if_pos hb]
      set idx := pixelIndex sx sy c yl with hidx
      set screen1 := Function.update screen idx (screen idx ^^^ 0xFFFFFF) with hscreen1
      set vf1 := (if screen idx = 0xFFFFFF then 1 else vf) with hvf1
      obtain ⟨ihscr, ihvf1, ihvf0⟩ := ih screen1 vf1 hrest
      have hscreen1_at : ∀ q : Fin 2048, q ≠ idx → screen1 q = screen q := by
        intro q hq
        rw [hscreen1, Function.update_noteq hq]
      have hrest_pix : ∀ c' ∈ rest, pixelIndex sx sy c' yl ≠ idx := by
        intro c' hc' heq
        exact hhead c' hc' heq.symm
      refine ⟨fun p => ⟨?_, ?_⟩, ?_, ?_⟩
      · rintro ⟨c', hc', hbit', hpix'⟩
        rcases List.mem_cons.mp hc' with h1 | h1
        · subst h1
          rw [hstep]
          have hnorest : ¬ (∃ c'' ∈ rest, bitSet sprite c'' ∧ pixelIndex sx sy c'' yl = p) := by
            rintro ⟨c'', hc'', -, hpix''⟩
            exact hrest_pix c'' hc'' (hpix''.trans hpix'.symm)
          rw [(ihscr p).2 hnorest]
          rw [← hpix']
          rw [hscreen1, Function.update_same]
        · rw [hstep]
          have hyes : ∃ c'' ∈ rest, bitSet sprite c'' ∧ pixelIndex sx sy c'' yl = p :=
            ⟨c', h1, hbit', hpix'⟩
          rw [(ihscr p).1 hyes]
          have hpne : p ≠ idx := by
            rw [← hpix']
            exact hrest_pix c' h1
          rw [hscreen1_at p hpne]
      · intro hnex
        rw [hstep]
        have hnorest : ¬ (∃ c'' ∈ rest, bitSet sprite c'' ∧ pixelIndex sx sy c'' yl = p) := by
          rintro ⟨c'', hc'', hb'', hp''⟩
          exact hnex ⟨c'', List.mem_cons_of_mem c hc'', hb'', hp''⟩
        rw [(ihscr p).2 hnorest]
        have hpne : p ≠ idx := by
          intro hpe
          exact hnex ⟨c, List.mem_cons_self c rest, hb, by rw [hpe]⟩
        exact hscreen1_at p hpne
      · rintro ⟨c', hc', hbit', hlit'⟩
        rw [hstep]
        rcases List.mem_cons.mp hc' with h1 | h1
        · subst h1
          have hvf1_one : vf1 = 1 := by rw [hvf1, if_pos hlit']
          by_cases hrc : ∃ c'' ∈ rest, bitSet sprite c'' ∧ screen1 (pixelIndex sx sy c'' yl) = 0xFFFFFF
          · exact ihvf1 hrc
          · rw [ihvf0 hrc, hvf1_one]
        · have hne : pixelIndex sx sy c' yl ≠ idx := hrest_pix c' h1
          have : screen1 (pixelIndex sx sy c' yl) = 0xFFFFFF := by
            rw [hscreen1_at _ hne]; exact hlit'
          exact ihvf1 ⟨c', h1, hbit', this⟩
      · intro hnex
        rw [hstep]
        have hnohead : ¬ (screen idx = 0xFFFFFF) := by
          intro hl
          exact hnex ⟨c, List.mem_cons_self c rest, hb, hl⟩
        have hvf1_eq : vf1 = vf := by rw [hvf1, if_neg hnohead]
        have hnorest : ¬ (∃ c'' ∈ rest, bitSet sprite c'' ∧ screen1 (pixelIndex sx sy c'' yl) = 0xFFFFFF) := by
          rintro ⟨c'', hc'', hb'', hl''⟩
          rw [hscreen1_at _ (hrest_pix c'' hc'')] at hl''
          exact hnex ⟨c'', List.mem_cons_of_mem c hc'', hb'', hl''⟩
        rw [ihvf0 hnorest, hvf1_eq]
    · have hstep : drwRow sprite sx sy yl (c :: rest) screen vf =
          drwRow sprite sx sy yl rest screen vf := by
        simp only [drwRow, if_neg hb]
      obtain ⟨ihscr, ihvf1, ihvf0⟩ := ih screen vf hrest
      have hdrop : ∀ (P : Nat → Prop),
          (∃ c' ∈ c :: rest, bitSet sprite c' ∧ P c') ↔
          (∃ c' ∈ rest, bitSet sprite c' ∧ P c') := by
        intro P
        constructor
        · rintro ⟨c', hc', hb', hp'⟩
          rcases List.mem_cons.mp hc' with h1 | h1
          · exact absurd (h1 ▸ hb') hb
          · exact ⟨c', h1, hb', hp'⟩
        · rintro ⟨c', hc', hb', hp'⟩
          exact ⟨c', List.mem_cons_of_mem c hc', hb', hp'⟩
      refine ⟨fun p => ⟨?_, ?_⟩, ?_, ?_⟩
      · intro hex
        rw [hstep]
        exact (ihscr p).1 ((hdrop (fun c' => pixelIndex sx sy c' yl = p)).mp hex)
      · intro hnex
        rw [hstep]
        exact (ihscr p).2 (fun hex =>
          hnex ((hdrop (fun c' => pixelIndex sx sy c' yl = p)).mpr hex))
      · intro hex
        rw [hstep]
        exact ihvf1 ((hdrop (fun c' => screen (pixelIndex sx sy c' yl) = 0xFFFFFF)).mp hex)
      · intro hnex
        rw [hstep]
        exact ihvf0 (fun hex =>
          hnex ((hdrop (fun c' => screen (pixelIndex sx sy c' yl) = 0xFFFFFF)).mpr hex))

/-- Pointwise characterization of the full draw loop over the sprite rows:
when every row address is in bounds and the rows land on pairwise distinct
screen lines, the loop succeeds, each cell hit by a set sprite bit is XORed
with the mask, every other cell is untouched, and the collision output is 1
exactly when some set bit lands on a cell lit in the original screen. -/
theorem drwRows_spec (mem : Fin 4096 → Nat) (i sx sy : Nat) (ys : List Nat)
    (screen : Fin 2048 → Nat) (vf : Nat)
    (hbound : ∀ yl ∈ ys, (i + yl) % 65536 < 4096)
    (hdisty : ys.Pairwise (fun a b => (sy + a) % 32 ≠ (sy + b) % 32)) :
    ∃ out, drwRows mem i sx sy ys screen vf = some out ∧
    (∀ p : Fin 2048,
      ((∃ yl ∈ ys, ∃ c ∈ List.range 8,
          bitSet (spriteRow mem i yl) c ∧ pixelIndex sx sy c yl = p) →
        out.1 p = screen p ^^^ 0xFFFFFF) ∧
      (¬ (∃ yl ∈ ys, ∃ c ∈ List.range 8,
          bitSet (spriteRow mem i yl) c ∧ pixelIndex sx sy c yl = p) →
        out.1 p = screen p)) ∧
    ((∃ yl ∈ ys, ∃ c ∈ List.range 8,
        bitSet (spriteRow mem i yl) c ∧ screen (pixelIndex sx sy c yl) = 0xFFFFFF) →
      out.2 = 1) ∧
    (¬ (∃ yl ∈ ys, ∃ c ∈ List.range 8,
        bitSet (spriteRow mem i yl) c ∧ screen (pixelIndex sx sy c yl) = 0xFFFFFF) →
      out.2 = vf) := by
  induction ys generalizing screen vf with
  | nil =>
    refine ⟨(screen, vf), rfl, fun p => ⟨?_, fun _ => rfl⟩, ?_, fun _ => rfl⟩
    · rintro ⟨yl, hyl, -⟩; cases hyl
    · rintro ⟨yl, hyl, -⟩; cases hyl
  | cons yl rest ih =>
    have hb0 : (i + yl) % 65536 < 4096 := hbound yl (List.mem_cons_self yl rest)
    rcases List.pairwise_cons.mp hdisty with ⟨hheadfy, hresty⟩
    have hsprite : spriteRow mem i yl = mem ⟨(i + yl) % 65536, hb0⟩ := by
      unfold spriteRow memGet
      rw [dif_pos hb0]
    set sprite := spriteRow mem i yl with hspritedef
    set acc := drwRow sprite sx sy yl (List.range 8) screen vf with hacc
    obtain ⟨rs_scr, rs_vf1, rs_vf0⟩ :=
      drwRow_spec sprite sx sy yl (List.range 8) screen vf (pairwise_pixel_range8 sx sy yl)
    have hstep : drwRows mem i sx sy (yl :: rest) screen vf =
        drwRows mem i sx sy rest acc.1 acc.2 := by
      rw [hacc, hsprite]
      simp only [drwRows]
      rw [dif_pos hb0]
    have hfy_head : ∀ yl' ∈ rest, ∀ c c' : Nat,
        pixelIndex sx sy c yl = pixelIndex sx sy c' yl' → False := by
      intro yl' hyl' c c' heq
      rw [pixelIndex_eq_iff] at heq
      exact hheadfy yl' hyl' heq.2
    have hacc_at : ∀ yl' ∈ rest, ∀ c' : Nat,
        acc.1 (pixelIndex sx sy c' yl') = screen (pixelIndex sx sy c' yl') := by
      intro yl' hyl' c'
      apply (rs_scr (pixelIndex sx sy c' yl')).2
      rintro ⟨c'', hc'', -, hpix''⟩
      exact hfy_head yl' hyl' c'' c' hpix''
    obtain ⟨out, hout, ihscr, ihvf1, ihvf0⟩ := ih acc.1 acc.2
      (fun b hb => hbound b (List.mem_cons_of_mem yl hb)) hresty
    refine ⟨out, hstep.trans hout, fun p => ⟨?_, ?_⟩, ?_, ?_⟩
    · rintro ⟨yl', hyl', c', hc', hbit', hpix'⟩
      rcases List.mem_cons.mp hyl' with h1 | h1
      · subst h1
        have hnorest : ¬ (∃ b ∈ rest, ∃ c ∈ List.range 8,
            bitSet (spriteRow mem i b) c ∧ pixelIndex sx sy c b = p) := by
          rintro ⟨b, hb1, c'', hc'', -, hpix''⟩
          exact hfy_head b hb1 c' c'' (hpix'.trans hpix''.symm)
        rw [(ihscr p).2 hnorest, ← hpix']
        exact (rs_scr _).1 ⟨c', hc', hbit', rfl⟩
      · have hyes : ∃ b ∈ rest, ∃ c ∈ List.range 8,
            bitSet (spriteRow mem i b) c ∧ pixelIndex sx sy c b = p :=
          ⟨yl', h1, c', hc', hbit', hpix'⟩
        rw [(ihscr p).1 hyes, ← hpix', hacc_at yl' h1 c']
    · intro hnex
      have hnorest : ¬ (∃ b ∈ rest, ∃ c ∈ List.range 8,
          bitSet (spriteRow mem i b) c ∧ pixelIndex sx sy c b = p) := by
        rintro ⟨b, hb1, c'', hc'', hbit'', hpix''⟩
        exact hnex ⟨b, List.mem_cons_of_mem yl hb1, c'', hc'', hbit'', hpix''⟩
      rw [(ihscr p).2 hnorest]
      apply (rs_scr p).2
      rintro ⟨c'', hc'', hbit'', hpix''⟩
      exact hnex ⟨yl, List.mem_cons_self yl rest, c'', hc'', hbit'', hpix''⟩
    · rintro ⟨yl', hyl', c', hc', hbit', hlit'⟩
      rcases List.mem_cons.mp hyl' with h1 | h1
      · subst h1
        have hacc2 : acc.2 = 1 := rs_vf1 ⟨c', hc', hbit', hlit'⟩
        by_cases hrc : ∃ b ∈ rest, ∃ c ∈ List.range 8,
            bitSet (spriteRow mem i b) c ∧ acc.1 (pixelIndex sx sy c b) = 0xFFFFFF
        · exact ihvf1 hrc
        · rw [ihvf0 hrc, hacc2]
      · refine ihvf1 ⟨yl', h1, c', hc', hbit', ?_⟩
        rw [hacc_at yl' h1 c']
        exact hlit'
    · intro hnex
      have hacc2 : acc.2 = vf := by
        apply rs_vf0
        rintro ⟨c'', hc'', hbit'', hlit''⟩
        exact hnex ⟨yl, List.mem_cons_self yl rest, c'', hc'', hbit'', hlit''⟩
      have hnorest : ¬ (∃ b ∈ rest, ∃ c ∈ List.range 8,
          bitSet (spriteRow mem i b) c ∧ acc.1 (pixelIndex sx sy c b) = 0xFFFFFF) := by
        rintro ⟨b, hb1, c'', hc'', hbit'', hlit''⟩
        rw [hacc_at b hb1 c''] at hlit''
        exact hnex ⟨b, List.mem_cons_of_mem yl hb1, c'', hc'', hbit'', hlit''⟩
      rw [ihvf0 hnorest, hacc2]

/-- Full characterization of one successful `drw`: with at most 32 rows, all
read in bounds, the draw succeeds; only `v[0xF]` and the screen change; a cell
hit by a set sprite bit is XORed with 0xFFFFFF and every other cell is
untouched; `v[0xF]` ends 1 exactly when some set bit landed on a lit cell. -/
theorem drw_spec (s : Chip8) (x y : Fin 16) (n : Nat)
    (hn : n ≤ 32) (hb : s.i + n ≤ 4096) :
    ∃ s1, s.drw x y n = some s1 ∧
      s1.memory = s.memory ∧ s1.i = s.i ∧ s1.pc = s.pc ∧
      s1.interface.keypad = s.interface.keypad ∧
      (∀ j : Fin 16, j ≠ 15 → s1.v j = s.v j) ∧
      (∀ p : Fin 2048,
        ((∃ yl ∈ List.range n, ∃ c ∈ List.range 8,
            bitSet (spriteRow s.memory s.i yl) c ∧
            pixelIndex (s.v x) (s.v y) c yl = p) →
          s1.interface.screen p = s.interface.screen p ^^^ 0xFFFFFF) ∧
        (¬ (∃ yl ∈ List.range n, ∃ c ∈ List.range 8,
            bitSet (spriteRow s.memory s.i yl) c ∧
            pixelIndex (s.v x) (s.v y) c yl = p) →
          s1.interface.screen p = s.interface.screen p)) ∧
      ((∃ yl ∈ List.range n, ∃ c ∈ List.range 8,
          bitSet (spriteRow s.memory s.i yl) c ∧
          s.interface.screen (pixelIndex (s.v x) (s.v y) c yl) = 0xFFFFFF) →
        s1.v 15 = 1) ∧
      (¬ (∃ yl ∈ List.range n, ∃ c ∈ List.range 8,
          bitSet (spriteRow s.memory s.i yl) c ∧
          s.interface.screen (pixelIndex (s.v x) (s.v y) c yl) = 0xFFFFFF) →
        s1.v 15 = 0) := by
  have hbound : ∀ yl ∈ List.range n, (s.i + yl) % 65536 < 4096 := by
    intro yl hyl
    have hyn := List.mem_range.mp hyl
    rw [Nat.mod_eq_of_lt (by omega)]
    omega
  have hdisty : (List.range n).Pairwise
      (fun a b => (s.v y + a) % 32 ≠ (s.v y + b) % 32) := by
    refine (List.pairwise_lt_range n).imp_of_mem ?_
    intro a b ha hb1 hab heq
    have han := List.mem_range.mp ha
    have hbn := List.mem_range.mp hb1
    omega
  obtain ⟨out, hout, hscr, hvf1, hvf0⟩ :=
    drwRows_spec s.memory s.i (s.v x) (s.v y) (List.range n)
      s.interface.screen 0 hbound hdisty
  refine ⟨{ s with v := Function.update s.v 15 out.2
                   interface := { s.interface with screen := out.1 } },
    ?_, rfl, rfl, rfl, rfl, ?_, ?_, ?_, ?_⟩
  · unfold Chip8.drw
    rw [hout]
  · intro j hj
    exact Function.update_noteq hj out.2 s.v
  · intro p
    exact ⟨fun h => (hscr p).1 h, fun h => (hscr p).2 h⟩
  · intro h
    show Function.update s.v 15 out.2 15 = 1
    rw [Function.update_same]
    exact hvf1 h
  · intro h
    show Function.update s.v 15 out.2 15 = 0
    rw [Function.update_same]
    exact hvf0 h

/-- Two consecutive draws with the same operands. -/
def drwTwice (s : Chip8) (x y : Fin 16) (n : Nat) : Option Chip8 :=
  (s.drw x y n).bind (fun s1 => s1.drw x y n)

/-- C7 amended: for operand registers other than VF and a sprite whose rows
are all read in bounds (any draw opcode has n below 16, so n at most 32
always holds at dispatch), drawing the same sprite twice in succession
succeeds and restores every display pixel to its pre-draw state, and VF after
the second draw is 1 exactly when the sprite contains at least one set bit
whose destination cell was off (0) before the first draw — not merely when
the sprite contains a set bit. -/
theorem c7_draw_twice (s : Chip8) (x y : Fin 16) (n : Nat)
    (hx : x ≠ 15) (hy : y ≠ 15) (hn : n ≤ 32) (hb : s.i + n ≤ 4096) :
    (drwTwice s x y n).isSome = true ∧
    ((drwTwice s x y n).getD s).interface.screen = s.interface.screen ∧
    (((drwTwice s x y n).getD s).v 15 = 1 ↔
      ∃ yl ∈ List.range n, ∃ c ∈ List.range 8,
        bitSet (spriteRow s.memory s.i yl) c ∧
        s.interface.screen (pixelIndex (s.v x) (s.v y) c yl) = 0) := by
  obtain ⟨s1, h1, hmem1, hi1, hpc1, hkp1, hv1, hscr1, hvf11, hvf10⟩ :=
    drw_spec s x y n hn hb
  have hvx1 : s1.v x = s.v x := hv1 x hx
  have hvy1 : s1.v y = s.v y := hv1 y hy
  obtain ⟨s2, h2, hmem2, hi2, hpc2, hkp2, hv2, hscr2, hvf21, hvf20⟩ :=
    drw_spec s1 x y n hn (by rw [hi1]; exact hb)
  rw [hmem1, hi1, hvx1, hvy1] at hscr2 hvf21 hvf20
  have hdt : drwTwice s x y n = some s2 := by
    unfold drwTwice
    rw [h1]
    exact h2
  rw [hdt]
  refine ⟨rfl, ?_, ?_⟩
  · show s2.interface.screen = s.interface.screen
    funext p
    by_cases hHit : ∃ yl ∈ List.range n, ∃ c ∈ List.range 8,
        bitSet (spriteRow s.memory s.i yl) c ∧
        pixelIndex (s.v x) (s.v y) c yl = p
    · rw [(hscr2 p).1 hHit, (hscr1 p).1 hHit, Nat.xor_cancel_right]
    · rw [(hscr2 p).2 hHit, (hscr1 p).2 hHit]
  · show s2.v 15 = 1 ↔ _
    constructor
    · intro h15
      by_contra hno
      have hnoc1 : ¬ (∃ yl ∈ List.range n, ∃ c ∈ List.range 8,
          bitSet (spriteRow s.memory s.i yl) c ∧
          s1.interface.screen (pixelIndex (s.v x) (s.v y) c yl) = 0xFFFFFF) := by
        rintro ⟨yl, hyl, c, hc, hbit, hlit⟩
        have hself : s1.interface.screen (pixelIndex (s.v x) (s.v y) c yl) =
            s.interface.screen (pixelIndex (s.v x) (s.v y) c yl) ^^^ 0xFFFFFF :=
          (hscr1 _).1 ⟨yl, hyl, c, hc, hbit, rfl⟩
        rw [hself, xor_mask_eq_mask_iff] at hlit
        exact hno ⟨yl, hyl, c, hc, hbit, hlit⟩
      rw [hvf20 hnoc1] at h15
      cases h15
    · rintro ⟨yl, hyl, c, hc, hbit, hzero⟩
      apply hvf21
      refine ⟨yl, hyl, c, hc, hbit, ?_⟩
      have hself : s1.interface.screen (pixelIndex (s.v x) (s.v y) c yl) =
          s.interface.screen (pixelIndex (s.v x) (s.v y) c yl) ^^^ 0xFFFFFF :=
        (hscr1 _).1 ⟨yl, hyl, c, hc, hbit, rfl⟩
      rw [hself, hzero]
      decide

/-- A state with the one-pixel sprite 0x80 at `I = 0x200`, draw coordinates
V0 = V1 = 0, and the destination pixel (0,0) already lit. -/
def c7badState : Chip8 :=
  { zeroState with
      i := 0x200
      memory := fun a => if a.val = 0x200 then 0x80 else 0
      interface := { zeroState.interface with
        screen := Function.update zeroState.interface.screen 0 0xFFFFFF } }

/-- The same sprite, but drawn with x = 0xF (VF as the x-coordinate register,
holding 1) over a blank screen. -/
def c7xfState : Chip8 :=
  { zeroState with
      i := 0x200
      memory := fun a => if a.val = 0x200 then 0x80 else 0
      v := Function.update zeroState.v 15 1 }

/-- C7 counterexample, in two parts.  First, on `c7badState` the sprite has a
set bit, yet VF after drawing it twice is 0, not 1: the first draw erases the
pre-lit destination pixel, so the second draw sees no collision — the claim
that VF ends 1 exactly when the sprite has a set bit is false.  Second, with
x = 0xF the first draw's VF write changes the draw coordinate, so the second
draw lands elsewhere and the display is not restored: pixel (0,0) of
`c7xfState` starts off (0) and ends lit (0xFFFFFF). -/
theorem c7_counterexample :
    c7badState.memory 0x200 &&& 0x80 ≠ 0 ∧
    (drwTwice c7badState 0 1 1).map (fun s2 => s2.v 15) = some 0 ∧
    c7xfState.interface.screen 0 = 0 ∧
    (drwTwice c7xfState 15 1 1).map (fun s2 => s2.interface.screen 0) =
      some 0xFFFFFF := by
  refine ⟨by decide, by decide, by decide, by decide⟩

/-- A state with the one-pixel sprite 0x80 at `I = 0x200` over a blank
screen, used to witness the amended double-draw theorem. -/
def c7witState : Chip8 :=
  { zeroState with
      i := 0x200
      memory := fun a => if a.val = 0x200 then 0x80 else 0 }

/-- C7 amended, witnessed: drawing the one-pixel sprite twice at V0, V1
succeeds and restores the blank screen. -/
theorem c7_draw_twice_witness :
    (drwTwice c7witState 0 1 1).isSome = true ∧
    ((drwTwice c7witState 0 1 1).getD c7witState).interface.screen =
      c7witState.interface.screen := by
  have h := c7_draw_twice c7witState 0 1 1 (by decide) (by decide) (by decide) (by decide)
  exact ⟨h.1, h.2.1⟩

end Chip8Spec
